import Mathlib

/-!
Shallow embedding of the core of the `gemma` mapping library
(`src/gemma/_bearings.py`, `_course.py`, `_exceptions.py`, `_cartogrpaher.py`),
together with theorems settling the frozen claims about it.

Modelling conventions:
* Python runtime values are modelled by `PyVal`.  Mappings (`dict`) are ordered
  association lists (insertion order, as in Python 3.7+); objects carry an
  ordered attribute list; a bound zero-argument method is the `callable`
  constructor carrying the value its invocation returns.  `Call` accessors are
  modelled without `func_args`/`func_kwargs` (zero-argument invocation), which
  is the only form produced by string parsing and by `Fallback` dispatch.
* Bearing names (`name`) are strings or integers (`PyName`), the only name
  types exercised by the library's own code and tests.
* Exceptions become the `Except` monad with error type `PyErr`.
  `NullNameError` is `.nullName msg`; Python `TypeError` is `.typeError`;
  `ValueError` is `.valueError`; raw `KeyError`/`IndexError`/`AttributeError`
  (normalized away by the bearings) are the remaining constructors.
* In-place mutation becomes explicit state passing: a `place` returns the
  updated target, and `Cartographer.map` threads the destination root, the
  engine cache and each Coordinate's transient `clean` data.
-/

/-- Name of a key/index/attribute/method: the name types used by the library
(`str` and `int`). -/
inductive PyName where
  | str (s : String)
  | int (n : Int)
deriving DecidableEq, Repr

/-- Python exceptions relevant to the embedded code.  `nullName` is
`NullNameError`; `keyError`, `indexError` and `attributeError` are the raw
built-in exceptions that the bearings normalize into `NullNameError`. -/
inductive PyErr where
  | nullName (msg : String)
  | typeError
  | valueError
  | keyError
  | indexError
  | attributeError
deriving DecidableEq, Repr

/-- Python runtime values: `None`, ints, strings, lists, tuples, dicts
(ordered association lists), attribute-carrying objects, and bound
zero-argument callables (`callable ret` returns `ret` when invoked).
`strictDict` is a mapping whose item-assignment raises `KeyError` for keys
not already present — the `StrictDict` example class of the `Item.place`
docstring, representing targets whose own `__setitem__` raises a key-missing
error. -/
inductive PyVal where
  | none
  | int (n : Int)
  | str (s : String)
  | list (xs : List PyVal)
  | tuple (xs : List PyVal)
  | dict (entries : List (PyName × PyVal))
  | strictDict (entries : List (PyName × PyVal))
  | obj (attrs : List (String × PyVal))
  | callable (ret : PyVal)

/-- Test used to translate the Python check `value is None`. -/
def PyVal.isNone : PyVal → Bool
  | .none => true
  | _ => false

/-- Association-list lookup, the model of `dict.__getitem__` resolution. -/
def assocLookup : List (PyName × PyVal) → PyName → Option PyVal
  | [], _ => Option.none
  | (k, v) :: rest, key => if k = key then some v else assocLookup rest key

/-- Association-list store: overwrite the existing key in place, else append.
This is Python dict assignment with insertion-order preservation. -/
def assocSet : List (PyName × PyVal) → PyName → PyVal → List (PyName × PyVal)
  | [], key, v => [(key, v)]
  | (k, v0) :: rest, key, v =>
    if k = key then (k, v) :: rest else (k, v0) :: assocSet rest key v

/-- Attribute lookup on an object's ordered attribute list. -/
def attrLookup : List (String × PyVal) → String → Option PyVal
  | [], _ => Option.none
  | (k, v) :: rest, key => if k = key then some v else attrLookup rest key

/-- Attribute store on an object's ordered attribute list. -/
def attrStore : List (String × PyVal) → String → PyVal → List (String × PyVal)
  | [], key, v => [(key, v)]
  | (k, v0) :: rest, key, v =>
    if k = key then (k, v) :: rest else (k, v0) :: attrStore rest key v

/-- Python sequence read `xs[i]` with negative-index support:
valid iff `-len xs ≤ i < len xs`, else `IndexError`. -/
def listGetPy (xs : List PyVal) (i : Int) : Except PyErr PyVal :=
  let n : Int := xs.length
  if 0 ≤ i then
    if i < n then
      match xs.get? i.toNat with
      | some v => .ok v
      | Option.none => .error .indexError
    else .error .indexError
  else
    if -n ≤ i then
      match xs.get? (i + n).toNat with
      | some v => .ok v
      | Option.none => .error .indexError
    else .error .indexError

/-- Python sequence write `xs[i] = v` with negative-index support:
valid iff `-len xs ≤ i < len xs`, else `IndexError`. -/
def listSetPy (xs : List PyVal) (i : Int) (v : PyVal) : Except PyErr (List PyVal) :=
  let n : Int := xs.length
  if 0 ≤ i then
    if i < n then .ok (xs.set i.toNat v) else .error .indexError
  else
    if -n ≤ i then .ok (xs.set (i + n).toNat v) else .error .indexError

/-- Concrete bearing variants (`Item`, `Call`, `Attr`): the classes that can
appear in `Fallback.BEARING_CLASSES`.  Every configuration of that list built
by the source (`_BEARING_CLASSES` and the `bearing()` factory, which filters
`Fallback` subclasses out) contains only these. -/
inductive CKind where
  | item
  | call
  | attr
deriving DecidableEq, Repr

/-- Bearing class of an accessor object: one of the concrete variants, or
`Fallback`. -/
inductive BKind where
  | concrete (k : CKind)
  | fallback
deriving DecidableEq, Repr

/-- Container types usable as a bearing `factory` in this embedding. -/
inductive PyType where
  | dictT
  | listT
deriving DecidableEq, Repr

/-- `init_factory`: instantiate the factory with no arguments. -/
def initFactory : PyType → PyVal
  | .dictT => .dict []
  | .listT => .list []

/-- `isinstance(v, factory)` for the modelled factory types. -/
def isinstanceT : PyVal → PyType → Bool
  | .dict _, .dictT => true
  | .list _, .listT => true
  | _, _ => false

/-- An accessor (`BearingAbstract` instance): its class, its `name`, the
`BEARING_CLASSES` list consulted when the class is `Fallback`
(class-level default `_BEARING_CLASSES = [Item, Call, Attr]`), and the
optional `factory`. -/
structure Bearing where
  kind : BKind
  name : PyName
  classes : List CKind := [.item, .call, .attr]
  factory : Option PyType := Option.none
deriving DecidableEq, Repr

/-- `str(name)` as used inside bearing shorthand strings. -/
def strOfName : PyName → String
  | .str s => s
  | .int n => toString n

/-- A single apostrophe, for rendering `repr` of string names. -/
def squote : String := ⟨[Char.ofNat 39]⟩

/-- `repr(name)`: strings are quoted, ints are printed plain
(mirrors `BearingAbstract.__repr__`). -/
def reprOfName : PyName → String
  | .str s => squote ++ s ++ squote
  | .int n => toString n

/-- `repr` of a `Fallback` bearing, the message of the `NullNameError` raised
when every variant in `BEARING_CLASSES` fails. -/
def reprOfFallback (nm : PyName) : String :=
  "<Fallback: " ++ reprOfName nm ++ ">"

/-- `str(bearing)`: the path-string shorthand (`[name]`, `name()`, `@name`,
bare name for `Fallback`). -/
def strOfBearing (b : Bearing) : String :=
  match b.kind with
  | .concrete .item => "[" ++ strOfName b.name ++ "]"
  | .concrete .call => strOfName b.name ++ "()"
  | .concrete .attr => "@" ++ strOfName b.name
  | .fallback => strOfName b.name

/-- Raw `target[name]` (`__getitem__`) semantics of the modelled values. -/
def rawGetItem (t : PyVal) (nm : PyName) : Except PyErr PyVal :=
  match t with
  | .dict es =>
    match assocLookup es nm with
    | some v => .ok v
    | Option.none => .error .keyError
  | .strictDict es =>
    match assocLookup es nm with
    | some v => .ok v
    | Option.none => .error .keyError
  | .list xs =>
    match nm with
    | .int i => listGetPy xs i
    | .str _ => .error .typeError
  | .tuple xs =>
    match nm with
    | .int i => listGetPy xs i
    | .str _ => .error .typeError
  | .str s =>
    match nm with
    | .int i =>
      match listGetPy (s.toList.map (fun c => .str ⟨[c]⟩)) i with
      | .ok v => .ok v
      | .error e => .error e
    | .str _ => .error .typeError
  | _ => .error .typeError

/-- Raw `target[name] = value` (`__setitem__`) semantics: dicts always accept,
lists bounds-check (with negative indices), everything else is not
item-assignable (`TypeError`). -/
def rawSetItem (t : PyVal) (nm : PyName) (v : PyVal) : Except PyErr PyVal :=
  match t with
  | .dict es => .ok (.dict (assocSet es nm v))
  | .strictDict es =>
    match assocLookup es nm with
    | some _ => .ok (.strictDict (assocSet es nm v))
    | Option.none => .error .keyError
  | .list xs =>
    match nm with
    | .int i =>
      match listSetPy xs i v with
      | .ok xs2 => .ok (.list xs2)
      | .error e => .error e
    | .str _ => .error .typeError
  | _ => .error .typeError

/-- Raw `getattr(target, s)`: only `obj` values carry (modelled) attributes. -/
def rawGetAttr (t : PyVal) (s : String) : Except PyErr PyVal :=
  match t with
  | .obj attrs =>
    match attrLookup attrs s with
    | some v => .ok v
    | Option.none => .error .attributeError
  | _ => .error .attributeError

/-- Raw `setattr(target, s, v)` on the modelled values. -/
def rawSetAttr (t : PyVal) (s : String) (v : PyVal) : Except PyErr PyVal :=
  match t with
  | .obj attrs => .ok (.obj (attrStore attrs s v))
  | _ => .error .attributeError

/-- `Item.fetch`: `target[name]`, with `KeyError`/`IndexError` normalized to
`NullNameError(str(self))`; other exceptions (`TypeError`) propagate. -/
def itemFetch (nm : PyName) (t : PyVal) : Except PyErr PyVal :=
  match rawGetItem t nm with
  | .ok v => .ok v
  | .error .keyError => .error (.nullName ("[" ++ strOfName nm ++ "]"))
  | .error .indexError => .error (.nullName ("[" ++ strOfName nm ++ "]"))
  | .error e => .error e

/-- `Item.place`: `target[name] = value`; `KeyError` becomes `NullNameError`;
on `IndexError`, a list target with an integer name is padded with `None`
(`name + 1 - len(target)` appends) and the assignment retried (any exception
from the retry propagates raw); otherwise `NullNameError`. -/
def itemPlace (nm : PyName) (t v : PyVal) : Except PyErr PyVal :=
  match rawSetItem t nm v with
  | .ok t2 => .ok t2
  | .error .keyError => .error (.nullName ("[" ++ strOfName nm ++ "]"))
  | .error .indexError =>
    match t, nm with
    | .list xs, .int i =>
      let pad := (i + 1 - (xs.length : Int)).toNat
      let xs2 := xs ++ List.replicate pad PyVal.none
      match rawSetItem (.list xs2) (.int i) v with
      | .ok t2 => .ok t2
      | .error e => .error e
    | _, _ => .error (.nullName ("[" ++ strOfName nm ++ "]"))
  | .error e => .error e

/-- `Attr.fetch`: `getattr(target, name)` with `AttributeError` normalized to
`NullNameError("@name")`; a non-string name is a `TypeError` (as `getattr`
raises for non-string names). -/
def attrFetch (nm : PyName) (t : PyVal) : Except PyErr PyVal :=
  match nm with
  | .int _ => .error .typeError
  | .str s =>
    match rawGetAttr t s with
    | .ok v => .ok v
    | .error .attributeError => .error (.nullName ("@" ++ s))
    | .error e => .error e

/-- `Attr.place`: read the current attribute (missing → `NullNameError`);
refuse to overwrite a callable member (`TypeError`); else set it. -/
def attrPlace (nm : PyName) (t v : PyVal) : Except PyErr PyVal :=
  match nm with
  | .int _ => .error .typeError
  | .str s =>
    match rawGetAttr t s with
    | .error .attributeError => .error (.nullName ("@" ++ s))
    | .error e => .error e
    | .ok (.callable _) => .error .typeError
    | .ok _ => rawSetAttr t s v

/-- `Call.fetch` (zero-argument form): look the method up (missing →
`NullNameError("name()")`), then invoke it; invoking a non-callable member is
a `TypeError`. -/
def callFetch (nm : PyName) (t : PyVal) : Except PyErr PyVal :=
  match nm with
  | .int _ => .error .typeError
  | .str s =>
    match rawGetAttr t s with
    | .error .attributeError => .error (.nullName (s ++ "()"))
    | .error e => .error e
    | .ok (.callable r) => .ok r
    | .ok _ => .error .typeError

/-- `Call.place` (zero-argument form): the method is looked up (missing →
`NullNameError`), then invoked as `method(value)`.  The modelled callables
take zero arguments, so passing the value raises a `TypeError` (arity
mismatch), as would invoking a non-callable member. -/
def callPlace (nm : PyName) (t : PyVal) : Except PyErr PyVal :=
  match nm with
  | .int _ => .error .typeError
  | .str s =>
    match rawGetAttr t s with
    | .error .attributeError => .error (.nullName (s ++ "()"))
    | .error e => .error e
    | .ok _ => .error .typeError

/-- Dispatch of `fetch` over the concrete bearing classes. -/
def concFetch : CKind → PyName → PyVal → Except PyErr PyVal
  | .item, nm, t => itemFetch nm t
  | .call, nm, t => callFetch nm t
  | .attr, nm, t => attrFetch nm t

/-- Dispatch of `place` over the concrete bearing classes (returns the updated
target). -/
def concPlace : CKind → PyName → PyVal → PyVal → Except PyErr PyVal
  | .item, nm, t, v => itemPlace nm t v
  | .call, nm, t, _ => callPlace nm t
  | .attr, nm, t, v => attrPlace nm t v

/-- `is_compatible`: acceptable `name` types per class (`Item`: `Any`;
`Call`, `Attr`: `str`).  This is the check `bearing_type(self)` performs when
`Fallback` reinterprets itself as a variant. -/
def isCompatC : CKind → PyName → Bool
  | .item, _ => true
  | .call, .str _ => true
  | .call, .int _ => false
  | .attr, .str _ => true
  | .attr, .int _ => false

/-- The exception classes `Fallback` dispatch catches per attempt:
`(NullNameError, TypeError, ValueError)`. -/
def caughtErr : PyErr → Bool
  | .nullName _ => true
  | .typeError => true
  | .valueError => true
  | _ => false

/-- Module constant `_BEARING_CLASSES = [Item, Call, Attr]`: the default
variant list of `Fallback`. -/
def _BEARING_CLASSES : List CKind := [.item, .call, .attr]

/-- `Fallback.fetch` loop body: for each class, cast (`TypeError` on an
incompatible name is caught and the class skipped), call its `fetch`, catch
`(NullNameError, TypeError, ValueError)` and try the next class; when the
list is exhausted raise `NullNameError(repr(self))`. -/
def tryFetch (nm : PyName) (t : PyVal) : List CKind → Except PyErr PyVal
  | [] => .error (.nullName (reprOfFallback nm))
  | k :: rest =>
    if isCompatC k nm then
      match concFetch k nm t with
      | .ok v => .ok v
      | .error e => if caughtErr e then tryFetch nm t rest else .error e
    else tryFetch nm t rest

/-- `Fallback.place` loop body: same dispatch as `tryFetch`, stopping at the
first class whose `place` succeeds. -/
def tryPlace (nm : PyName) (t v : PyVal) : List CKind → Except PyErr PyVal
  | [] => .error (.nullName (reprOfFallback nm))
  | k :: rest =>
    if isCompatC k nm then
      match concPlace k nm t v with
      | .ok t2 => .ok t2
      | .error e => if caughtErr e then tryPlace nm t v rest else .error e
    else tryPlace nm t v rest

/-- A single cast-and-fetch attempt of `Fallback` dispatch: the cast of an
incompatible name raises `TypeError` (which the loop catches). -/
def attemptFetch (k : CKind) (nm : PyName) (t : PyVal) : Except PyErr PyVal :=
  if isCompatC k nm then concFetch k nm t else .error .typeError

/-- `BearingAbstract.fetch` resolved by class. -/
def bearingFetch (b : Bearing) (t : PyVal) : Except PyErr PyVal :=
  match b.kind with
  | .concrete k => concFetch k b.name t
  | .fallback => tryFetch b.name t b.classes

/-- `BearingAbstract.place` resolved by class (returns updated target). -/
def bearingPlace (b : Bearing) (t v : PyVal) : Except PyErr PyVal :=
  match b.kind with
  | .concrete k => concPlace k b.name t v
  | .fallback => tryPlace b.name t v b.classes

/-- `type(self) in other.BEARING_CLASSES` membership test. -/
def kindInClasses (cs : List CKind) (k : BKind) : Bool :=
  cs.any (fun c => decide (BKind.concrete c = k))

/-- `BearingAbstract.__eq__` on two bearings: names must match; then either
side being a `Fallback` whose `BEARING_CLASSES` contains the other's class
makes them equal, as does an `isinstance` relation between the classes (for
the built-in sibling classes: equal classes). -/
def bearingEqB (a b : Bearing) : Bool :=
  if a.name ≠ b.name then false
  else if b.kind = .fallback && kindInClasses b.classes a.kind then true
  else if a.kind = .fallback && kindInClasses a.classes b.kind then true
  else if a.kind = b.kind then true
  else false

/-- Right operand of a `==` comparison against a bearing: another bearing, or
any non-bearing runtime value. -/
inductive EqOperand where
  | bearingOp (b : Bearing)
  | valueOp (v : PyVal)

/-- `BearingAbstract.__eq__` at the public interface: comparing with anything
that is not a `BearingAbstract` raises `TypeError`. -/
def bearingDunderEq (a : Bearing) (other : EqOperand) : Except PyErr Bool :=
  match other with
  | .bearingOp b => .ok (bearingEqB a b)
  | .valueOp _ => .error .typeError

/-- A `Course` is the ordered tuple of bearings (`Course._bearings`). -/
abbrev Course := List Bearing

/-- `Course.__eq__`: tuple equality of the bearing sequences (same length,
pairwise `BearingAbstract.__eq__`). -/
def courseEqB : Course → Course → Bool
  | [], [] => true
  | a :: r1, b :: r2 => bearingEqB a b && courseEqB r1 r2
  | _, _ => false

/-- `Course.__contains__(item)`: windowed equality — some contiguous slice of
`big` of `sub`'s length equals `sub`.  (`range(0, len(self) - len(item) + 1)`
paired with end index `len(item), len(item)+1, ...`.) -/
def courseContainsB (big sub : Course) : Bool :=
  (List.range (big.length - sub.length + 1)).any fun i =>
    courseEqB ((big.drop i).take sub.length) sub

/-- `Course.fetch(target, default=NO_DEFAULT)`: run each bearing's `fetch` on
the running value; on `NullNameError` return `default` when one was supplied,
else re-raise; other exceptions propagate regardless of the default. -/
def courseFetch : Course → PyVal → Option PyVal → Except PyErr PyVal
  | [], t, _ => .ok t
  | b :: rest, t, d =>
    match bearingFetch b t with
    | .ok t2 => courseFetch rest t2 d
    | .error (.nullName m) =>
      match d with
      | some dv => .ok dv
      | Option.none => .error (.nullName m)
    | .error e => .error e

/-- `Item.fetch` during the `Course.place` walk: fetched value plus the
write-back closure recording where in the parent the (aliased, in Python
mutated-in-place) child lives.  A fetched string character yields an
unchanged-parent closure: strings are immutable, no mutation of the child can
exist, so the closure is never invoked with a changed value. -/
def itemFetchLoc (nm : PyName) (t : PyVal) : Except PyErr (PyVal × (PyVal → PyVal)) :=
  match t with
  | .dict es =>
    match assocLookup es nm with
    | some v => .ok (v, fun v2 => .dict (assocSet es nm v2))
    | Option.none => .error (.nullName ("[" ++ strOfName nm ++ "]"))
  | .strictDict es =>
    match assocLookup es nm with
    | some v => .ok (v, fun v2 => .strictDict (assocSet es nm v2))
    | Option.none => .error (.nullName ("[" ++ strOfName nm ++ "]"))
  | .list xs =>
    match nm with
    | .int i =>
      match listGetPy xs i with
      | .ok v =>
        .ok (v, fun v2 => .list (xs.set (if 0 ≤ i then i.toNat else (i + xs.length).toNat) v2))
      | .error _ => .error (.nullName ("[" ++ strOfName nm ++ "]"))
    | .str _ => .error .typeError
  | .tuple xs =>
    match nm with
    | .int i =>
      match listGetPy xs i with
      | .ok v =>
        .ok (v, fun v2 => .tuple (xs.set (if 0 ≤ i then i.toNat else (i + xs.length).toNat) v2))
      | .error _ => .error (.nullName ("[" ++ strOfName nm ++ "]"))
    | .str _ => .error .typeError
  | .str s =>
    match nm with
    | .int i =>
      match listGetPy (s.toList.map (fun c => .str ⟨[c]⟩)) i with
      | .ok v => .ok (v, fun _ => t)
      | .error _ => .error (.nullName ("[" ++ strOfName nm ++ "]"))
    | .str _ => .error .typeError
  | _ => .error .typeError

/-- `Attr.fetch` during the `Course.place` walk, with write-back closure. -/
def attrFetchLoc (nm : PyName) (t : PyVal) : Except PyErr (PyVal × (PyVal → PyVal)) :=
  match nm with
  | .int _ => .error .typeError
  | .str s =>
    match t with
    | .obj attrs =>
      match attrLookup attrs s with
      | some v => .ok (v, fun v2 => .obj (attrStore attrs s v2))
      | Option.none => .error (.nullName ("@" ++ s))
    | _ => .error (.nullName ("@" ++ s))

/-- `Call.fetch` during the `Course.place` walk: the zero-argument method
returns its stored value; mutating the returned object updates that stored
value (reference sharing). -/
def callFetchLoc (nm : PyName) (t : PyVal) : Except PyErr (PyVal × (PyVal → PyVal)) :=
  match nm with
  | .int _ => .error .typeError
  | .str s =>
    match t with
    | .obj attrs =>
      match attrLookup attrs s with
      | some (.callable r) => .ok (r, fun v2 => .obj (attrStore attrs s (.callable v2)))
      | some _ => .error .typeError
      | Option.none => .error (.nullName (s ++ "()"))
    | _ => .error (.nullName (s ++ "()"))

/-- Concrete-class dispatch of the locating fetch. -/
def concFetchLoc : CKind → PyName → PyVal → Except PyErr (PyVal × (PyVal → PyVal))
  | .item, nm, t => itemFetchLoc nm t
  | .call, nm, t => callFetchLoc nm t
  | .attr, nm, t => attrFetchLoc nm t

/-- `Fallback.fetch` during the `Course.place` walk: same class loop as
`tryFetch`, keeping the successful class's write-back closure. -/
def tryFetchLoc (nm : PyName) (t : PyVal) : List CKind → Except PyErr (PyVal × (PyVal → PyVal))
  | [] => .error (.nullName (reprOfFallback nm))
  | k :: rest =>
    if isCompatC k nm then
      match concFetchLoc k nm t with
      | .ok r => .ok r
      | .error e => if caughtErr e then tryFetchLoc nm t rest else .error e
    else tryFetchLoc nm t rest

/-- `BearingAbstract.fetch` during the `Course.place` walk. -/
def bearingFetchLoc (b : Bearing) (t : PyVal) : Except PyErr (PyVal × (PyVal → PyVal))
  :=
  match b.kind with
  | .concrete k => concFetchLoc k b.name t
  | .fallback => tryFetchLoc b.name t b.classes

/-- `Course.place` walk over the parent bearings: fetch each intermediate
target (`NullNameError` with no factory propagates; with a factory, or when
the fetched value is not an instance of the factory type, a fresh container
is materialized via `init_factory`, placed with the bearing's `place`, and
descent continues into it).  Python mutates the intermediate targets through
shared references; here the write-back closures propagate the updated child
to the root. -/
def placeWalk (endB : Bearing) (v : PyVal) : List Bearing → PyVal → Except PyErr PyVal
  | [], t => bearingPlace endB t v
  | b :: rest, t =>
    match bearingFetchLoc b t with
    | .ok (child, wb) =>
      match b.factory with
      | Option.none =>
        match placeWalk endB v rest child with
        | .ok child2 => .ok (wb child2)
        | .error e => .error e
      | some ty =>
        if isinstanceT child ty then
          match placeWalk endB v rest child with
          | .ok child2 => .ok (wb child2)
          | .error e => .error e
        else
          match bearingPlace b t (initFactory ty) with
          | .error e => .error e
          | .ok t1 =>
            match bearingFetchLoc b t1 with
            | .ok (_, wb1) =>
              match placeWalk endB v rest (initFactory ty) with
              | .ok node2 => .ok (wb1 node2)
              | .error e => .error e
            | .error e => .error e
    | .error (.nullName m) =>
      match b.factory with
      | Option.none => .error (.nullName m)
      | some ty =>
        match bearingPlace b t (initFactory ty) with
        | .error e => .error e
        | .ok t1 =>
          match bearingFetchLoc b t1 with
          | .ok (_, wb1) =>
            match placeWalk endB v rest (initFactory ty) with
            | .ok node2 => .ok (wb1 node2)
            | .error e => .error e
          | .error e => .error e
    | .error e => .error e

/-- `Course.place(target, value)`: walk `self.parent` resolving intermediate
targets, then invoke `self.end_point.place` on the resolved parent.  On an
empty course `end_point` (`self._bearings[-1]`) raises `IndexError`. -/
def coursePlace (cs : Course) (t v : PyVal) : Except PyErr PyVal :=
  match cs.getLast? with
  | Option.none => .error .indexError
  | some endB => placeWalk endB v cs.dropLast t

/-- Split on the path separator, the model of `str.split("/")`. -/
def splitSlashAux : List Char → List Char → List (List Char)
  | [], acc => [acc.reverse]
  | c :: cs, acc =>
    if c = '/' then acc.reverse :: splitSlashAux cs [] else splitSlashAux cs (c :: acc)

/-- `"a/b/c".split("/")`. -/
def splitSlash (s : String) : List String :=
  (splitSlashAux s.toList []).map (fun cs => ⟨cs⟩)

/-- Scan the reversed remainder of an `[...]` literal for the last `]`
(the greedy `.+` of `Item.REGEX = \[(.+)\]`), returning the name characters. -/
def dropThroughClose : List Char → Option (List Char)
  | [] => Option.none
  | c :: cs => if c = ']' then some cs.reverse else dropThroughClose cs

/-- `Item.name_from_str`: `re.match(r"\[(.+)\]", text)` — text starts with
`[`, the greedy group runs to the last later `]`, and must be nonempty. -/
def itemNameFromStr (s : String) : Option String :=
  match s.toList with
  | '[' :: rest =>
    match dropThroughClose rest.reverse with
    | some nm => if nm.length ≥ 1 then some ⟨nm⟩ else Option.none
    | Option.none => Option.none
  | _ => Option.none

/-- Scanner for `Call.REGEX = (.+?)\(\)`: the lazy group takes the shortest
nonempty prefix followed by the literal `()`. -/
def callScan (acc : List Char) : List Char → Option (List Char)
  | [] => Option.none
  | c :: cs =>
    if acc.isEmpty then callScan [c] cs
    else
      match c, cs with
      | '(', ')' :: _ => some acc.reverse
      | _, _ => callScan (c :: acc) cs

/-- `Call.name_from_str`. -/
def callNameFromStr (s : String) : Option String :=
  (callScan [] s.toList).map (fun cs => ⟨cs⟩)

/-- `Attr.name_from_str`: `re.match("@(.+)", text)`. -/
def attrNameFromStr (s : String) : Option String :=
  match s.toList with
  | '@' :: rest => if rest.length ≥ 1 then some ⟨rest⟩ else Option.none
  | _ => Option.none

/-- The `bearing()` factory on a string: attempt `name_from_str` for `Item`,
`Call`, `Attr`, `Fallback` in order (`ValueError` on a failed regex moves to
the next class); a bare nonempty text becomes a `Fallback` whose
`BEARING_CLASSES` are the remaining concrete classes (`bearing()` filters
`Fallback` itself out of the pool).  An unparseable text raises `TypeError`
(`Option.none` here). -/
def parseBearingStr (s : String) : Option Bearing :=
  match itemNameFromStr s with
  | some nm => some { kind := .concrete .item, name := .str nm }
  | Option.none =>
    match callNameFromStr s with
    | some nm => some { kind := .concrete .call, name := .str nm }
    | Option.none =>
      match attrNameFromStr s with
      | some nm => some { kind := .concrete .attr, name := .str nm }
      | Option.none =>
        if s.length ≥ 1 then
          some { kind := .fallback, name := .str s, classes := _BEARING_CLASSES }
        else Option.none

/-- `Course(text)`: split the `/`-delimited string and parse each piece. -/
def parseCourse (s : String) : Option Course :=
  (splitSlash s).mapM parseBearingStr

/-- The engine's per-instance cache (`Cartographer.cache`), a dict shared with
every clean hook during `map`. -/
abbrev Cache := List (PyName × PyVal)

/-- A clean hook over courses (`clean_org`): receives the course and the
engine cache, returns the cleaned course and the (possibly mutated) cache.
The `coordinate` argument of the Python hook signature is omitted; the hooks
exercised here do not consult it. -/
abbrev OrgHook := Course → Cache → Course × Cache

/-- A clean hook over destination courses (`clean_dst`); the entry may be
`None` (and a hook may return `None`, the "skip this destination" no-op). -/
abbrev DstHook := Option Course → Cache → Option Course × Cache

/-- A clean hook over the in-flight value (`clean_value`). -/
abbrev ValHook := PyVal → Cache → PyVal × Cache

/-- `Coordinate.org`: a single `Course` or a tuple of them. -/
inductive OrgInput where
  | single (c : Course)
  | tup (cs : List Course)

/-- `Coordinate.dst`: a single `Course` or a tuple of optional courses. -/
inductive DstInput where
  | singleC (c : Course)
  | tupD (ds : List (Option Course))

/-- `Coordinate.default`: `NO_DEFAULT`, one value used as-is, or a tuple of
per-origin defaults in which `Option.none` stands for `NO_DEFAULT`. -/
inductive DefaultInput where
  | noDefault
  | single (v : PyVal)
  | tup (vs : List (Option PyVal))

/-- A mapping directive (`Coordinate` dataclass): origin course(s), optional
destination course(s), the three optional clean hooks, and default value(s).
(The `__post_init__` length validation of tuple defaults is the separate
predicate `validDefaultLength`.) -/
structure Coordinate where
  org : OrgInput
  dst : Option DstInput := Option.none
  clean_org : Option OrgHook := Option.none
  clean_dst : Option DstHook := Option.none
  clean_value : Option ValHook := Option.none
  default : DefaultInput := .noDefault

/-- `Coordinate._validate_default_length`: a tuple origin with a non-tuple or
length-mismatched default raises `ValueError` at construction. -/
def validDefaultLength (co : Coordinate) : Bool :=
  match co.default, co.org with
  | .noDefault, _ => true
  | _, .single _ => true
  | .single _, .tup _ => false
  | .tup vs, .tup cs => decide (cs.length = vs.length)

/-- A Coordinate's transient scratch state (`CleanData`), rebuilt at the
start of every `map` call.  `value` is a `PyVal` whose `.none` doubles — as
in the source — as the "not fetched yet" sentinel. -/
structure CleanData where
  org_list : List Course
  dst_list : List (Option Course)
  default_list : List (Option PyVal)
  value : PyVal := .none

/-- `CleanData.__post_init__`: expand `org`, `default` and `dst` into aligned
lists (a missing `dst` becomes `[None] * len(org_list)`; `NO_DEFAULT`
replicates; a single non-tuple default is appended once regardless of the
origin count, exactly as the source does). -/
def mkCleanData (co : Coordinate) : CleanData :=
  let org_list :=
    match co.org with
    | .single c => [c]
    | .tup cs => cs
  let default_list :=
    match co.default with
    | .noDefault => org_list.map (fun _ => Option.none)
    | .tup vs => vs
    | .single v => [some v]
  let dst_list :=
    match co.dst with
    | Option.none => org_list.map (fun _ => Option.none)
    | some (.singleC d) => [some d]
    | some (.tupD ds) => ds
  { org_list := org_list, dst_list := dst_list, default_list := default_list }

/-- Thread an org-course hook over the course list (`_clean_courses`),
passing the cache along. -/
def threadOrgHook (h : OrgHook) : List Course → Cache → List Course × Cache
  | [], cache => ([], cache)
  | c :: cs, cache =>
    let (c2, cache2) := h c cache
    let (rest, cache3) := threadOrgHook h cs cache2
    (c2 :: rest, cache3)

/-- Clean the origin courses: the Coordinate hook takes precedence; the
engine default `Cartographer.clean_org` passes each course through. -/
def cleanOrgCourses (hook : Option OrgHook) (cs : List Course) (cache : Cache) :
    List Course × Cache :=
  match hook with
  | Option.none => (cs, cache)
  | some h => threadOrgHook h cs cache

/-- `Course(*(Fallback(x) for x in course))`: the engine's default
destination for a Coordinate without one. -/
def fallbackifyCourse (c : Course) : Course :=
  c.map (fun b => { kind := .fallback, name := b.name })

/-- Engine default `Cartographer.clean_dst`: pass a given course through; a
`None` destination mirrors `coordinate.clean.org_list[0]` with `Fallback`
bearings. -/
def defaultCleanDst (orgHead : Course) : Option Course → Option Course
  | Option.none => some (fallbackifyCourse orgHead)
  | some c => some c

/-- Thread a dst-course hook over the destination list. -/
def threadDstHook (h : DstHook) : List (Option Course) → Cache → List (Option Course) × Cache
  | [], cache => ([], cache)
  | d :: ds, cache =>
    let (d2, cache2) := h d cache
    let (rest, cache3) := threadDstHook h ds cache2
    (d2 :: rest, cache3)

/-- Clean the destination courses (Coordinate hook, else engine default;
`orgHead` is `clean.org_list[0]`, already org-cleaned — unreachable when
`org_list` is empty, since the fetch step errors first). -/
def cleanDstCourses (hook : Option DstHook) (orgHead : Course)
    (ds : List (Option Course)) (cache : Cache) : List (Option Course) × Cache :=
  match hook with
  | Option.none => (ds.map (defaultCleanDst orgHead), cache)
  | some h => threadDstHook h ds cache

/-- Apply the value-clean hook (Coordinate hook, else the engine default
identity `Cartographer.clean_value`). -/
def applyValHook : Option ValHook → PyVal → Cache → PyVal × Cache
  | Option.none, v, cache => (v, cache)
  | some h, v, cache => h v cache

/-- Fetch each origin course against the origin root with its aligned
default (`zip` truncates to the shorter list); the first exception aborts. -/
def fetchEach (origin : PyVal) : List (Course × Option PyVal) → Except PyErr (List PyVal)
  | [] => .ok []
  | (c, d) :: rest =>
    match courseFetch c origin d with
    | .error e => .error e
    | .ok v =>
      match fetchEach origin rest with
      | .error e => .error e
      | .ok vs => .ok (v :: vs)

/-- Tail of `_fetch_org_value`: build the tuple of fetched values and unwrap
it to the single value when there is at most one origin course (`value[0]` on
an empty tuple raises `IndexError`). -/
def computeOrgValue (orgs : List Course) (defaults : List (Option PyVal))
    (origin : PyVal) : Except PyErr PyVal :=
  match fetchEach origin (orgs.zip defaults) with
  | .error e => .error e
  | .ok vs =>
    if orgs.length ≤ 1 then
      match vs with
      | [] => .error .indexError
      | v :: _ => .ok v
    else .ok (.tuple vs)

/-- Python iteration of the (possibly tuple) cleaned value when several
destination courses must be zipped with it; a non-iterable value raises
`TypeError`. -/
def pyIterate : PyVal → Except PyErr (List PyVal)
  | .tuple xs => .ok xs
  | .list xs => .ok xs
  | .str s => .ok (s.toList.map (fun c => .str ⟨[c]⟩))
  | .dict es =>
    .ok (es.map (fun e => match e.1 with
      | .str s => PyVal.str s
      | .int n => PyVal.int n))
  | .strictDict es =>
    .ok (es.map (fun e => match e.1 with
      | .str s => PyVal.str s
      | .int n => PyVal.int n))
  | _ => .error .typeError

/-- Result of processing one coordinate (`_map_coordinate`): the raised
exception if any, and the threaded state (scratch data, destination root,
cache) at the point of return or raise. -/
structure CoordOutcome where
  res : Option PyErr
  cd : CleanData
  dst : PyVal
  cache : Cache

/-- Destination placement loop of `_place_dst_value`: place each value on its
course (a `None` course is skipped); the first exception aborts, keeping the
mutations already applied. -/
def placeLoop : List (PyVal × Option Course) → PyVal → Option PyErr × PyVal
  | [], dst => (Option.none, dst)
  | (_, Option.none) :: rest, dst => placeLoop rest dst
  | (v, some c) :: rest, dst =>
    match coursePlace c dst v with
    | .ok dst2 => placeLoop rest dst2
    | .error e => (some e, dst)

/-- `_place_dst_value`: clean the destination courses, wrap a single value
for uniform iteration (several destinations iterate the value itself), then
place. -/
def placeDstValue (co : Coordinate) (cd : CleanData) (dst : PyVal) (cache : Cache) :
    CoordOutcome :=
  let (dsts, cache1) := cleanDstCourses co.clean_dst (cd.org_list.headD []) cd.dst_list cache
  let cd1 := { cd with dst_list := dsts }
  if dsts.length ≤ 1 then
    let (err, dst2) := placeLoop ([cd1.value].zip dsts) dst
    ⟨err, cd1, dst2, cache1⟩
  else
    match pyIterate cd1.value with
    | .error e => ⟨some e, cd1, dst, cache1⟩
    | .ok values =>
      let (err, dst2) := placeLoop (values.zip dsts) dst
      ⟨err, cd1, dst2, cache1⟩

/-- `_map_coordinate`: fetch the origin value(s) unless already set (the
source tests `coord.clean.value is None`, so a pre-set `None` refetches),
run the value-clean hook, then place at the destination(s). -/
def mapCoordinate (origin : PyVal) (co : Coordinate) (cd : CleanData)
    (dst : PyVal) (cache : Cache) : CoordOutcome :=
  if cd.value.isNone then
    let (orgs, cache1) := cleanOrgCourses co.clean_org cd.org_list cache
    let cd1 := { cd with org_list := orgs }
    match computeOrgValue orgs cd1.default_list origin with
    | .error e => ⟨some e, cd1, dst, cache1⟩
    | .ok v =>
      let (v2, cache2) := applyValHook co.clean_value v cache1
      placeDstValue co { cd1 with value := v2 } dst cache2
  else
    let (v2, cache2) := applyValHook co.clean_value cd.value cache
    placeDstValue co { cd with value := v2 } dst cache2

/-- State threaded through a `map` call: the destination root, the engine
cache, the explicitly mapped courses, and the recorded (suppressed) errors. -/
structure MapState where
  dst : PyVal
  cache : Cache
  mapped : List Course
  errors : List PyErr

/-- A running or aborted `map`: `ok` continues, `raised` aborted with an
exception (state kept: in Python the destination root stays mutated). -/
inductive MapRun where
  | ok (st : MapState)
  | raised (e : PyErr) (st : MapState)

/-- `_map_coordinates` loop: rebuild each Coordinate's `clean` scratch state,
process it, catch only `NullNameError` (re-raised when `exceptions`, else
recorded), and on success append `clean.org_list[0]` to the mapped list. -/
def mapCoordsGo (origin : PyVal) (exceptions : Bool) :
    List Coordinate → MapState → MapRun
  | [], st => .ok st
  | co :: rest, st =>
    let cd := mkCleanData co
    let o := mapCoordinate origin co cd st.dst st.cache
    match o.res with
    | Option.none =>
      mapCoordsGo origin exceptions rest
        ⟨o.dst, o.cache, st.mapped ++ [o.cd.org_list.headD []], st.errors⟩
    | some (.nullName m) =>
      if exceptions then .raised (.nullName m) ⟨o.dst, o.cache, st.mapped, st.errors⟩
      else
        mapCoordsGo origin exceptions rest
          ⟨o.dst, o.cache, st.mapped, st.errors ++ [.nullName m]⟩
    | some e => .raised e ⟨o.dst, o.cache, st.mapped, st.errors⟩

/-- The skip test of `_map_survey_chart`: a discovered course already covered
by a mapped course — `any(course in x for x in mapped)` or
`any(x in course for x in mapped)`. -/
def surveySkip (mapped : List Course) (course : Course) : Bool :=
  mapped.any (fun x => courseContainsB x course) ||
    mapped.any (fun x => courseContainsB course x)

/-- `_map_survey_chart` loop: for each discovered `(course, value)` pair not
covered by a mapped course, build a fresh `Coordinate(org=course)` whose
scratch `value` is the discovered value, process it (`NullNameError`
re-raised or recorded per `exceptions`), and append the course to the mapped
list (also after a recorded failure). -/
def mapSurveyGo (origin : PyVal) (exceptions : Bool) :
    List (Course × PyVal) → MapState → MapRun
  | [], st => .ok st
  | (course, value) :: rest, st =>
    if surveySkip st.mapped course then mapSurveyGo origin exceptions rest st
    else
      let co : Coordinate := { org := .single course }
      let cd := { mkCleanData co with value := value }
      let o := mapCoordinate origin co cd st.dst st.cache
      match o.res with
      | Option.none =>
        mapSurveyGo origin exceptions rest
          ⟨o.dst, o.cache, st.mapped ++ [course], st.errors⟩
      | some (.nullName m) =>
        if exceptions then .raised (.nullName m) ⟨o.dst, o.cache, st.mapped, st.errors⟩
        else
          mapSurveyGo origin exceptions rest
            ⟨o.dst, o.cache, st.mapped ++ [course], st.errors ++ [.nullName m]⟩
      | some e => .raised e ⟨o.dst, o.cache, st.mapped, st.errors⟩

/-- Outcome of `surveyor.chart(origin_root, exceptions=...)`, supplied as an
oracle: a full chart, a `SuppressedErrors` carrying errors plus the partial
chart (suppressed mode), or an immediately raised error (`NonNavigableError`
in raising mode — the only kind `_chart_survey` does not catch). -/
inductive ChartResult where
  | ok (chart : List (Course × PyVal))
  | suppressed (errs : List PyErr) ( chart_partial : List (Course × PyVal))
  | raised (e : PyErr)

/-- The sort key of `_chart_survey`: `lambda x: len(x)` where `x` is the
`(course, value)` pair — `len` of a 2-tuple, hence the constant 2.  (The
comment in the source says the intent is "reverse sort by length so that
deeper elements are attempted first", which would need `len(x[0])`.) -/
def chartSortKey (_ : Course × PyVal) : Nat := 2

/-- `course_chart.sort(key=lambda x: len(x), reverse=True)`: Python's stable
sort in descending key order. -/
def sortChart (chart : List (Course × PyVal)) : List (Course × PyVal) :=
  chart.mergeSort (fun a b => decide (chartSortKey b ≤ chartSortKey a))

/-- `_chart_survey`: chart the origin root (recovering the partial chart and
recording the carried errors when the surveyor raised `SuppressedErrors`),
sort, and run the survey-mapping loop. -/
def chartSurvey (origin : PyVal) (exceptions : Bool)
    (surveyor : Bool → ChartResult) (st : MapState) : MapRun :=
  match surveyor exceptions with
  | .raised e => .raised e st
  | .ok chart => mapSurveyGo origin exceptions (sortChart chart) st
  | .suppressed errs chart_partial =>
    mapSurveyGo origin exceptions (sortChart chart_partial)
      { st with errors := st.errors ++ errs }

/-- The mapping engine instance: `Cartographer.__init__` creates the empty
per-instance cache. -/
structure Cartographer where
  cache : Cache := []

/-- Result of a `map` call. -/
inductive MapOutcome where
  | ok
  | raised (e : PyErr)
  | suppressed (errs : List PyErr)

/-- Final step of `map`: raise the single `SuppressedErrors` aggregate when
any failures were recorded. -/
def finishMap (st : MapState) : MapOutcome × PyVal × Cartographer :=
  match st.errors with
  | [] => (.ok, st.dst, ⟨st.cache⟩)
  | es => (.suppressed es, st.dst, ⟨st.cache⟩)

/-- `Cartographer.map(origin_root, dst_root, coordinates, surveyor,
exceptions)`: rebuild every Coordinate's scratch state, map the explicit
coordinates, auto-map via the surveyor when one is given, then raise the
aggregate of recorded failures if any.  The per-instance `cache` is carried
over from the previous call — the source never clears it, its own docstring
notwithstanding. -/
def cartMap (cart : Cartographer) (origin dst : PyVal) (coords : List Coordinate)
    (surveyor : Option (Bool → ChartResult)) (exceptions : Bool) :
    MapOutcome × PyVal × Cartographer :=
  let st0 : MapState := ⟨dst, cart.cache, [], []⟩
  match mapCoordsGo origin exceptions coords st0 with
  | .raised e st => (.raised e, st.dst, ⟨st.cache⟩)
  | .ok st =>
    match surveyor with
    | Option.none => finishMap st
    | some orc =>
      match chartSurvey origin exceptions orc st with
      | .raised e st2 => (.raised e, st2.dst, ⟨st2.cache⟩)
      | .ok st2 => finishMap st2

/-- `map` with the signature default `exceptions: bool = True`. -/
def cartMapDefault (cart : Cartographer) (origin dst : PyVal)
    (coords : List Coordinate) (surveyor : Option (Bool → ChartResult)) :
    MapOutcome × PyVal × Cartographer :=
  cartMap cart origin dst coords surveyor true

/-- `isinstance(target, List)` as used by the auto-extension branch of
`Item.place`. -/
def isListVal : PyVal → Bool
  | .list _ => true
  | _ => false

/-- `isinstance(name, int)` as used by the auto-extension branch of
`Item.place`. -/
def isIntName : PyName → Bool
  | .int _ => true
  | _ => false

/-- Shorthand: an `Item` bearing with a string name. -/
def itemB (s : String) : Bearing :=
  { kind := .concrete .item, name := .str s }

/-- Shorthand: a `Fallback` bearing with a string name and the default
variant pool. -/
def fbB (s : String) : Bearing :=
  { kind := .fallback, name := .str s }

/-- Origin root of the suppressed-mode scenario: only `a` and `d` resolve. -/
def c5origin : PyVal := .dict [(.str "a", .int 1), (.str "d", .int 4)]

/-- A coordinate with a single `Item` origin course and all defaults. -/
def mkC (s : String) : Coordinate := { org := .single [itemB s] }

/-- Five coordinates, of which the origins `b`, `c`, `x` do not resolve
against `c5origin`. -/
def c5coords : List Coordinate := [mkC "a", mkC "b", mkC "c", mkC "d", mkC "x"]

/-- The suppressed-mode run: five coordinates, three invalid origins. -/
def c5res : MapOutcome × PyVal × Cartographer :=
  cartMap {} c5origin (.dict []) c5coords Option.none false

/-- A `map` call with the signature-default error mode and one unresolvable
origin coordinate. -/
def c2res : MapOutcome × PyVal × Cartographer :=
  cartMapDefault {} (.dict []) (.dict []) [mkC "b"] Option.none

/-- A value-clean hook that stores an entry in the engine cache. -/
def hWrite : ValHook := fun v cache => (v, assocSet cache (.str "k") (.str "stashed"))

/-- A value-clean hook that replaces the value by the cached entry (or a
marker when the entry is absent). -/
def hRead : ValHook := fun _ cache =>
  (match assocLookup cache (.str "k") with
   | some x => x
   | Option.none => .str "MISSING", cache)

/-- Coordinate whose clean hook writes to the cache. -/
def cWrite : Coordinate := { org := .single [itemB "a"], clean_value := some hWrite }

/-- Coordinate whose clean hook reads from the cache. -/
def cRead : Coordinate := { org := .single [itemB "a"], clean_value := some hRead }

/-- First `map` call on a fresh engine: the hook caches an entry. -/
def c1run1 : MapOutcome × PyVal × Cartographer :=
  cartMapDefault {} (.dict [(.str "a", .str "v1")]) (.dict []) [cWrite] Option.none

/-- Second `map` call on the same engine instance: the hook reads the cache
written during the first call. -/
def c1run2 : MapOutcome × PyVal × Cartographer :=
  cartMapDefault c1run1.2.2 (.dict [(.str "a", .str "v2")]) (.dict []) [cRead] Option.none

/-- Ancestor course discovered before its descendant (depth-first discovery
order of `Surveyor.chart`). -/
def cA : Course := [itemB "a"]

/-- The deeper descendant course. -/
def cAB : Course := [itemB "a", itemB "b"]

/-- Origin of the survey scenario. -/
def c3origin : PyVal := .dict [(.str "a", .dict [(.str "b", .int 1)])]

/-- The chart a surveyor produces for `c3origin`: the ancestor `(Course[a])`
is yielded before the leaf `(Course[a][b])`. -/
def c3chart : List (Course × PyVal) :=
  [(cA, .dict [(.str "b", .int 1)]), (cAB, .int 1)]

/-- Surveyor oracle returning `c3chart` in either error mode. -/
def c3orc : Bool → ChartResult := fun _ => .ok c3chart

/-- The course of the C8 example, `"[nested]/[one key]"` parsed. -/
def nestedCourse : Course := [itemB "nested", itemB "one key"]

/-- Python's `list.sort` is stable, so with the constant key produced by
`lambda x: len(x)` on the `(course, value)` 2-tuples it leaves the chart
unchanged. -/
theorem sortChart_eq_self (chart : List (Course × PyVal)) : sortChart chart = chart :=
  List.mergeSort_of_sorted (List.pairwise_iff_forall_sublist.mpr (by intro a b _; rfl))

/-- Setting the final position of a replicate block splits off the new
element. -/
theorem set_replicate_last (k : Nat) (a v : PyVal) :
    (List.replicate (k + 1) a).set k v = List.replicate k a ++ [v] := by
  induction k with
  | zero => rfl
  | succ k ih =>
    simp [List.replicate_succ, List.set]
    exact ih

/-- Helper for C6: unfolding of `BearingAbstract.__eq__` into the equality
specification. -/
theorem bearingEqB_iff (a b : Bearing) :
    bearingEqB a b = true ↔
      (a.name = b.name ∧ (a.kind = b.kind ∨
        (a.kind = .fallback ∧ kindInClasses a.classes b.kind = true) ∨
        (b.kind = .fallback ∧ kindInClasses b.classes a.kind = true))) := by
  simp only [bearingEqB]
  split_ifs with h1 h2 h3 h4 <;> simp_all [Bool.and_eq_true, decide_eq_true_eq]

/-- Helper for C10: storing an absent key appends it at the end. -/
theorem assocSet_of_lookup_none (es : List (PyName × PyVal)) (k : PyName) (v : PyVal)
    (h : assocLookup es k = Option.none) : assocSet es k v = es ++ [(k, v)] := by
  induction es with
  | nil => rfl
  | cons e rest ih =>
    obtain ⟨k1, v1⟩ := e
    by_cases hk : k1 = k
    · simp [assocLookup, hk] at h
    · simp only [assocLookup, if_neg hk] at h
      simp [assocSet, hk, ih h]

/-- C1: the claim says the engine's run-scoped cache is cleared at the start
of each `map` call, so an entry written by a clean hook in one call is not
visible to hooks in a later call on the same engine instance.  The source
never clears `self.cache` (despite its own docstring), and this run shows it:
after a first `map` whose hook caches `"stashed"`, a second `map` on the same
engine reads that entry and places it into the new destination. -/
theorem cache_persists_across_map_calls :
    c1run1.1 = .ok ∧
    c1run1.2.2.cache = [(.str "k", .str "stashed")] ∧
    c1run2.1 = .ok ∧
    c1run2.2.1 = .dict [(.str "a", .str "stashed")] :=
  ⟨rfl, rfl, rfl, rfl⟩

/-- C2 (counterexample): with the signature default (`exceptions: bool =
True`) a `map` over one unresolvable origin coordinate raises the
`NullNameError` immediately — it is not recorded and aggregated, so
suppression is not the default mode. -/
theorem map_default_raises_immediately :
    c2res = (.raised (.nullName "[b]"), .dict [], ⟨[]⟩) := rfl

/-- C2 (amended): `map` called without an explicit error-mode argument uses
`exceptions = True`, so a `NullNameError` propagates immediately; only in the
explicit suppressed mode (`exceptions=False`) is a `NullNameError` from a
coordinate recorded and processing continued, with the recorded failures
raised together as the single aggregate at the end. -/
theorem map_error_mode_default_and_suppression :
    (∀ (cart : Cartographer) (origin dst : PyVal) (coords : List Coordinate)
        (surveyor : Option (Bool → ChartResult)),
      cartMapDefault cart origin dst coords surveyor =
        cartMap cart origin dst coords surveyor true) ∧
    (∀ (origin : PyVal) (co : Coordinate) (rest : List Coordinate) (st : MapState)
        (m : String),
      (mapCoordinate origin co (mkCleanData co) st.dst st.cache).res = some (.nullName m) →
      mapCoordsGo origin false (co :: rest) st =
        mapCoordsGo origin false rest
          ⟨(mapCoordinate origin co (mkCleanData co) st.dst st.cache).dst,
           (mapCoordinate origin co (mkCleanData co) st.dst st.cache).cache,
           st.mapped, st.errors ++ [.nullName m]⟩) ∧
    (∀ st : MapState, ∀ e : PyErr, ∀ es : List PyErr, st.errors = e :: es →
      finishMap st = (.suppressed (e :: es), st.dst, ⟨st.cache⟩)) := by
  refine ⟨fun _ _ _ _ _ => rfl, ?_, ?_⟩
  · intro origin co rest st m h
    simp only [mapCoordsGo, h]
    rfl
  · intro st e es h
    simp only [finishMap, h]

/-- Witness for C2's amended theorem at concrete inputs: the unresolvable
coordinate `[b]` is recorded and the loop continues; a nonempty error list
becomes the aggregate. -/
theorem map_error_mode_witness :
    (mapCoordinate c5origin (mkC "b") (mkCleanData (mkC "b")) (PyVal.dict []) []).res =
      some (.nullName "[b]") ∧
    mapCoordsGo c5origin false [mkC "b"] ⟨.dict [], [], [], []⟩ =
      mapCoordsGo c5origin false [] ⟨.dict [], [], [], [.nullName "[b]"]⟩ ∧
    finishMap ⟨.dict [], [], [], [.nullName "[b]"]⟩ =
      (.suppressed [.nullName "[b]"], .dict [], ⟨[]⟩) := by
  refine ⟨rfl, ?_, ?_⟩
  · exact map_error_mode_default_and_suppression.2.1 c5origin (mkC "b") []
      ⟨.dict [], [], [], []⟩ "[b]" rfl
  · exact map_error_mode_default_and_suppression.2.2 ⟨.dict [], [], [], [.nullName "[b]"]⟩
      (.nullName "[b]") [] rfl

/-- C3: the claim says discovered paths are processed deepest-first (by
decreasing path length) after the containment-based skip.  The sort key of
`_chart_survey` is `len(x)` of the `(course, value)` 2-tuple — the constant
2 — so the stable sort leaves the chart in discovery order (ancestors before
descendants), and in this run the one-step ancestor `Course[a]` is processed
and mapped first while the two-step leaf `Course[a][b]` is skipped by the
containment test, the opposite of deepest-first. -/
theorem survey_chart_sort_noop_bug :
    (∀ x : Course × PyVal, chartSortKey x = 2) ∧
    (∀ chart : List (Course × PyVal), sortChart chart = chart) ∧
    chartSurvey c3origin true c3orc ⟨.dict [], [], [], []⟩ =
      .ok ⟨.dict [(.str "a", .dict [(.str "b", .int 1)])], [], [cA], []⟩ := by
  refine ⟨fun x => rfl, sortChart_eq_self, ?_⟩
  show mapSurveyGo c3origin true (sortChart c3chart) _ = _
  rw [sortChart_eq_self]
  rfl

/-- C4: `Fallback.fetch` iterates the configured variant list in order — by
default `_BEARING_CLASSES = [Item, Call, Attr]` — reinterpreting itself as
each variant and calling its `fetch`; an attempt failing with
`NullNameError`, `TypeError` (the spec's TypeMismatch, including the cast of
an incompatible name) or `ValueError` (the spec's ParseError) moves to the
next variant; the first success is returned; an exhausted list raises
`NullNameError`. -/
theorem fallback_fetch_dispatch :
    _BEARING_CLASSES = [CKind.item, CKind.call, CKind.attr] ∧
    (∀ (b : Bearing) (t : PyVal), b.kind = .fallback →
      bearingFetch b t = tryFetch b.name t b.classes) ∧
    (∀ (k : CKind) (nm : PyName) (t v : PyVal) (rest : List CKind),
      attemptFetch k nm t = .ok v → tryFetch nm t (k :: rest) = .ok v) ∧
    (∀ (k : CKind) (nm : PyName) (t : PyVal) (e : PyErr) (rest : List CKind),
      attemptFetch k nm t = .error e → caughtErr e = true →
      tryFetch nm t (k :: rest) = tryFetch nm t rest) ∧
    (∀ (nm : PyName) (t : PyVal),
      tryFetch nm t [] = .error (.nullName (reprOfFallback nm))) ∧
    (∀ m, caughtErr (.nullName m) = true) ∧
    caughtErr .typeError = true ∧ caughtErr .valueError = true := by
  refine ⟨rfl, ?_, ?_, ?_, fun nm t => rfl, fun m => rfl, rfl, rfl⟩
  · intro b t h
    simp only [bearingFetch, h]
  · intro k nm t v rest h
    by_cases hc : isCompatC k nm = true
    · simp only [attemptFetch, if_pos hc] at h
      simp only [tryFetch, if_pos hc, h]
    · simp only [attemptFetch, if_neg hc] at h
      exact absurd h (by simp)
  · intro k nm t e rest h hcaught
    by_cases hc : isCompatC k nm = true
    · simp only [attemptFetch, if_pos hc] at h
      simp [tryFetch, if_pos hc, h, hcaught]
    · simp only [tryFetch, if_neg hc]

/-- Witness for C4: a fallback resolves through its class list; a successful
`Item` attempt returns; an incompatible `Call` cast (integer name) moves to
the next variant. -/
theorem fallback_fetch_dispatch_witness :
    bearingFetch (fbB "a") (.dict [(.str "a", .int 1)]) =
      tryFetch (.str "a") (.dict [(.str "a", .int 1)]) [.item, .call, .attr] ∧
    tryFetch (.str "a") (.dict [(.str "a", .int 1)]) (.item :: [.call, .attr]) =
      .ok (.int 1) ∧
    tryFetch (.int 0) (.dict []) (.call :: [.attr]) = tryFetch (.int 0) (.dict []) [.attr] :=
  ⟨fallback_fetch_dispatch.2.1 (fbB "a") _ rfl,
    fallback_fetch_dispatch.2.2.1 .item (.str "a") _ (.int 1) [.call, .attr] rfl,
    fallback_fetch_dispatch.2.2.2.1 .call (.int 0) (.dict []) .typeError [.attr] rfl rfl⟩

/-- C5: a suppressed-mode `map` over five coordinates of which the three
origins `[b]`, `[c]`, `[x]` do not resolve raises a single aggregate with
exactly those three recorded `NullNameError`s, while the two valid
coordinates are applied to the destination root. -/
theorem map_suppressed_three_of_five :
    c5res.1 = .suppressed [.nullName "[b]", .nullName "[c]", .nullName "[x]"] ∧
    c5res.2.1 = .dict [(.str "a", .int 1), (.str "d", .int 4)] ∧
    [PyErr.nullName "[b]", .nullName "[c]", .nullName "[x]"].length = 3 :=
  ⟨rfl, rfl, rfl⟩

/-- C6: two accessors compare equal iff their names are equal and their
classes match, or either side is a `Fallback` whose configured variant list
contains the other's class; in particular a `Fallback` over the same name as
a listed concrete accessor is equal to it in both directions. -/
theorem bearing_eq_spec :
    (∀ a b : Bearing, bearingEqB a b = true ↔
      (a.name = b.name ∧ (a.kind = b.kind ∨
        (a.kind = .fallback ∧ kindInClasses a.classes b.kind = true) ∨
        (b.kind = .fallback ∧ kindInClasses b.classes a.kind = true)))) ∧
    (∀ f b : Bearing, f.kind = .fallback → kindInClasses f.classes b.kind = true →
      f.name = b.name → bearingEqB f b = true ∧ bearingEqB b f = true) := by
  refine ⟨bearingEqB_iff, ?_⟩
  intro f b hf hin hname
  exact ⟨(bearingEqB_iff f b).mpr ⟨hname, Or.inr (Or.inl ⟨hf, hin⟩)⟩,
    (bearingEqB_iff b f).mpr ⟨hname.symm, Or.inr (Or.inr ⟨hf, hin⟩)⟩⟩

/-- Witness for C6: `Fallback("a")` equals `Item("a")` in both directions. -/
theorem bearing_eq_spec_witness :
    bearingEqB (fbB "a") (itemB "a") = true ∧ bearingEqB (itemB "a") (fbB "a") = true :=
  bearing_eq_spec.2 (fbB "a") (itemB "a") rfl rfl rfl

/-- C7: `Item.place` at integer position `p ≥ n` on a list of length `n`
inserts exactly `p - n` `None` placeholders before the new value: afterwards
the list is `xs ++ [None] * (p - n) ++ [value]`, of length `p + 1` (so
positions `n..p-1` hold `None` and position `p` the value). -/
theorem item_place_pads_beyond_length (xs : List PyVal) (p : Nat) (v : PyVal)
    (h : xs.length ≤ p) :
    itemPlace (.int p) (.list xs) v =
      .ok (.list (xs ++ List.replicate (p - xs.length) PyVal.none ++ [v])) ∧
    (xs ++ List.replicate (p - xs.length) PyVal.none ++ [v]).length = p + 1 := by
  have h0 : (0 : Int) ≤ (p : Int) := Int.ofNat_nonneg p
  have h1 : ¬((p : Int) < (xs.length : Int)) := by exact_mod_cast Nat.not_lt.mpr h
  have e1 : rawSetItem (.list xs) (.int p) v = .error .indexError := by
    simp only [rawSetItem, listSetPy, if_pos h0, if_neg h1]
  have hpad : ((p : Int) + 1 - (xs.length : Int)).toNat = p + 1 - xs.length := by
    omega
  have hlen2 : ((xs ++ List.replicate (p + 1 - xs.length) PyVal.none).length : Int) =
      (p : Int) + 1 := by
    simp only [List.length_append, List.length_replicate]
    omega
  have h2 : (p : Int) < ((xs ++ List.replicate (p + 1 - xs.length) PyVal.none).length : Int) := by
    rw [hlen2]; omega
  have e2 : rawSetItem (.list (xs ++ List.replicate (p + 1 - xs.length) PyVal.none)) (.int p) v
      = .ok (.list ((xs ++ List.replicate (p + 1 - xs.length) PyVal.none).set p v)) := by
    simp only [rawSetItem, listSetPy, if_pos h0, if_pos h2, Int.toNat_natCast]
  have e3 : (xs ++ List.replicate (p + 1 - xs.length) PyVal.none).set p v
      = xs ++ List.replicate (p - xs.length) PyVal.none ++ [v] := by
    rw [List.set_append, if_neg (Nat.not_lt.mpr h)]
    have hr : p + 1 - xs.length = (p - xs.length) + 1 := by omega
    rw [hr, set_replicate_last]
    rw [List.append_assoc]
  constructor
  · simp only [itemPlace, e1, hpad, e2, e3]
  · simp only [List.length_append, List.length_replicate, List.length_cons, List.length_nil]
    omega

/-- Witness for C7: placing at position 3 of a 1-element list pads with two
`None`s. -/
theorem item_place_pads_witness :
    [PyVal.int 7].length ≤ 3 ∧
    itemPlace (.int 3) (.list [.int 7]) (.str "x") =
      .ok (.list [.int 7, .none, .none, .str "x"]) := by
  refine ⟨by decide, ?_⟩
  exact (item_place_pads_beyond_length [.int 7] 3 (.str "x") (by decide)).1

/-- C8: `Course.fetch` applies each bearing's `fetch` to the running value;
a `NullNameError` returns the supplied default, else propagates; concretely
the course parsed from `"[nested]/[one key]"` fetches `1` from
`{"nested": {"one key": 1}}` and returns the default `99` against
`{"nested": {}}`. -/
theorem course_fetch_sequential_default :
    (∀ (b : Bearing) (rest : Course) (t t2 : PyVal) (d : Option PyVal),
      bearingFetch b t = .ok t2 → courseFetch (b :: rest) t d = courseFetch rest t2 d) ∧
    (∀ (b : Bearing) (rest : Course) (t dv : PyVal) (m : String),
      bearingFetch b t = .error (.nullName m) →
      courseFetch (b :: rest) t (some dv) = .ok dv) ∧
    (∀ (b : Bearing) (rest : Course) (t : PyVal) (m : String),
      bearingFetch b t = .error (.nullName m) →
      courseFetch (b :: rest) t Option.none = .error (.nullName m)) ∧
    parseCourse "[nested]/[one key]" = some nestedCourse ∧
    courseFetch nestedCourse (.dict [(.str "nested", .dict [(.str "one key", .int 1)])])
      Option.none = .ok (.int 1) ∧
    courseFetch nestedCourse (.dict [(.str "nested", .dict [])]) (some (.int 99)) =
      .ok (.int 99) := by
  refine ⟨?_, ?_, ?_, rfl, rfl, rfl⟩
  · intro b rest t t2 d hb
    simp only [courseFetch, hb]
  · intro b rest t dv m hb
    simp only [courseFetch, hb]
  · intro b rest t m hb
    simp only [courseFetch, hb]

/-- Witness for C8: the first step of the example course fetches the nested
dict, and a missing first step returns the default. -/
theorem course_fetch_witness :
    bearingFetch (itemB "nested") (.dict [(.str "nested", .dict [(.str "one key", .int 1)])]) =
      .ok (.dict [(.str "one key", .int 1)]) ∧
    courseFetch nestedCourse (.dict [(.str "nested", .dict [(.str "one key", .int 1)])])
        Option.none =
      courseFetch [itemB "one key"] (.dict [(.str "one key", .int 1)]) Option.none ∧
    courseFetch [itemB "missing"] (.dict []) (some (.int 99)) = .ok (.int 99) := by
  refine ⟨rfl, ?_, ?_⟩
  · exact course_fetch_sequential_default.1 (itemB "nested") [itemB "one key"] _
      (.dict [(.str "one key", .int 1)]) Option.none rfl
  · exact course_fetch_sequential_default.2.1 (itemB "missing") [] (.dict [])
      (.int 99) "[missing]" rfl

/-- C9: comparing an accessor with any non-accessor operand raises
`TypeError` rather than returning `False`. -/
theorem bearing_eq_non_bearing_raises (a : Bearing) (v : PyVal) :
    bearingDunderEq a (.valueOp v) = .error .typeError := rfl

/-- C10: `Item.place` on a standard dict inserts an absent key without
raising; and it yields `NullNameError` exactly when the target's own item
assignment raises `KeyError`, or raises `IndexError` on a non-list target or
non-integer name (no auto-extension); concretely the strict mapping whose
assignment raises `KeyError` for new keys gets `NullNameError`. -/
theorem item_place_dict_and_nullname :
    (∀ (es : List (PyName × PyVal)) (k : PyName) (v : PyVal),
      assocLookup es k = Option.none →
      itemPlace k (.dict es) v = .ok (.dict (es ++ [(k, v)]))) ∧
    (∀ (t : PyVal) (k : PyName) (v : PyVal),
      (∃ m, itemPlace k t v = .error (.nullName m)) ↔
        (rawSetItem t k v = .error .keyError ∨
          (rawSetItem t k v = .error .indexError ∧
            ¬(isListVal t = true ∧ isIntName k = true)))) ∧
    itemPlace (.str "c") (.strictDict [(.str "a", .int 1)]) (.int 2) =
      .error (.nullName "[c]") := by
  refine ⟨?_, ?_, rfl⟩
  · intro es k v h
    simp only [itemPlace, rawSetItem, assocSet_of_lookup_none es k v h]
  · intro t k v
    cases t with
    | none => simp [itemPlace, rawSetItem]
    | int n => simp [itemPlace, rawSetItem]
    | str s => simp [itemPlace, rawSetItem]
    | tuple xs => simp [itemPlace, rawSetItem]
    | obj attrs => simp [itemPlace, rawSetItem]
    | callable r => simp [itemPlace, rawSetItem]
    | dict es => simp [itemPlace, rawSetItem]
    | strictDict es =>
      cases hl : assocLookup es k with
      | some w => simp [itemPlace, rawSetItem, hl]
      | none => simp [itemPlace, rawSetItem, hl]
    | list xs =>
      cases k with
      | str s => simp [itemPlace, rawSetItem]
      | int i =>
        cases hls : listSetPy xs i v with
        | ok xs2 => simp [itemPlace, rawSetItem, hls]
        | error e =>
          have he : e = .indexError := by
            simp only [listSetPy] at hls
            split_ifs at hls <;> simp_all
          subst he
          constructor
          · rintro ⟨m, hm⟩
            simp only [itemPlace, rawSetItem, hls] at hm
            cases h2 : listSetPy (xs ++ List.replicate ((i + 1 - (xs.length : Int)).toNat) PyVal.none) i v with
            | ok ys => rw [h2] at hm; simp at hm
            | error e2 =>
              rw [h2] at hm
              have he2 : e2 = .indexError := by
                simp only [listSetPy] at h2
                split_ifs at h2 <;> simp_all
              subst he2
              simp at hm
          · rintro (hk | ⟨hi, hni⟩)
            · simp [rawSetItem, hls] at hk
            · exact absurd ⟨rfl, rfl⟩ hni

/-- Witness for C10: inserting the absent key `"c"` into a one-entry dict
appends it. -/
theorem item_place_dict_witness :
    assocLookup [(PyName.str "a", PyVal.int 1)] (.str "c") = Option.none ∧
    itemPlace (.str "c") (.dict [(.str "a", .int 1)]) (.int 2) =
      .ok (.dict [(.str "a", .int 1), (.str "c", .int 2)]) := by
  refine ⟨rfl, ?_⟩
  exact item_place_dict_and_nullname.1 [(.str "a", .int 1)] (.str "c") (.int 2) rfl
